import Mathlib

/-!
Verification of the mcp-dock-data ETL pipeline (official-registry variant).

The JavaScript sources treat upstream registry responses as untyped JSON and
access every field defensively (`x.f || default`, `x?.f`).  The embedding
therefore works over a universal `JsValue` type mirroring the JavaScript value
space that the scripts manipulate: `undefined`, `null`, booleans, numbers,
strings, arrays and plain objects.  Timestamps (`publishedAt`) are modelled as
epoch-millisecond numerics: `new Date(n)` on a numeric input denotes exactly
`n`, and the only use the code makes of dates is the `<` comparison of their
numeric values, so string date parsing stays outside the embedding.

Object fields are association lists with distinct keys (JavaScript object
literals cannot carry duplicate keys); `Map` keys are compared structurally,
which agrees with the SameValueZero semantics of JavaScript `Map` on the
primitive (string) keys the scripts use.
-/

inductive JsValue : Type where
  | undef : JsValue
  | null : JsValue
  | bool : Bool → JsValue
  | num : Int → JsValue
  | str : String → JsValue
  | arr : List JsValue → JsValue
  | obj : List (String × JsValue) → JsValue

mutual

/-- Structural boolean equality on `JsValue`. -/
def jsBeq : JsValue → JsValue → Bool
  | JsValue.undef, JsValue.undef => true
  | .null, .null => true
  | .bool a, .bool b => a == b
  | .num a, .num b => a == b
  | .str a, .str b => a == b
  | .arr a, .arr b => jsBeqList a b
  | .obj a, .obj b => jsBeqObj a b
  | _, _ => false

def jsBeqList : List JsValue → List JsValue → Bool
  | [], [] => true
  | x :: xs, y :: ys => jsBeq x y && jsBeqList xs ys
  | _, _ => false

def jsBeqObj : List (String × JsValue) → List (String × JsValue) → Bool
  | [], [] => true
  | (k1, v1) :: xs, (k2, v2) :: ys => k1 == k2 && jsBeq v1 v2 && jsBeqObj xs ys
  | _, _ => false

end

mutual

def jsBeq_iff : ∀ a b : JsValue, jsBeq a b = true ↔ a = b
  | JsValue.undef, JsValue.undef => by simp [jsBeq]
  | JsValue.undef, .null => by simp [jsBeq]
  | JsValue.undef, .bool _ => by simp [jsBeq]
  | JsValue.undef, .num _ => by simp [jsBeq]
  | JsValue.undef, .str _ => by simp [jsBeq]
  | JsValue.undef, .arr _ => by simp [jsBeq]
  | JsValue.undef, .obj _ => by simp [jsBeq]
  | .null, JsValue.undef => by simp [jsBeq]
  | .null, .null => by simp [jsBeq]
  | .null, .bool _ => by simp [jsBeq]
  | .null, .num _ => by simp [jsBeq]
  | .null, .str _ => by simp [jsBeq]
  | .null, .arr _ => by simp [jsBeq]
  | .null, .obj _ => by simp [jsBeq]
  | .bool _, JsValue.undef => by simp [jsBeq]
  | .bool _, .null => by simp [jsBeq]
  | .bool a, .bool b => by simp [jsBeq]
  | .bool _, .num _ => by simp [jsBeq]
  | .bool _, .str _ => by simp [jsBeq]
  | .bool _, .arr _ => by simp [jsBeq]
  | .bool _, .obj _ => by simp [jsBeq]
  | .num _, JsValue.undef => by simp [jsBeq]
  | .num _, .null => by simp [jsBeq]
  | .num _, .bool _ => by simp [jsBeq]
  | .num a, .num b => by simp [jsBeq]
  | .num _, .str _ => by simp [jsBeq]
  | .num _, .arr _ => by simp [jsBeq]
  | .num _, .obj _ => by simp [jsBeq]
  | .str _, JsValue.undef => by simp [jsBeq]
  | .str _, .null => by simp [jsBeq]
  | .str _, .bool _ => by simp [jsBeq]
  | .str _, .num _ => by simp [jsBeq]
  | .str a, .str b => by simp [jsBeq]
  | .str _, .arr _ => by simp [jsBeq]
  | .str _, .obj _ => by simp [jsBeq]
  | .arr _, JsValue.undef => by simp [jsBeq]
  | .arr _, .null => by simp [jsBeq]
  | .arr _, .bool _ => by simp [jsBeq]
  | .arr _, .num _ => by simp [jsBeq]
  | .arr _, .str _ => by simp [jsBeq]
  | .arr a, .arr b => by simp [jsBeq, jsBeqList_iff a b]
  | .arr _, .obj _ => by simp [jsBeq]
  | .obj _, JsValue.undef => by simp [jsBeq]
  | .obj _, .null => by simp [jsBeq]
  | .obj _, .bool _ => by simp [jsBeq]
  | .obj _, .num _ => by simp [jsBeq]
  | .obj _, .str _ => by simp [jsBeq]
  | .obj _, .arr _ => by simp [jsBeq]
  | .obj a, .obj b => by simp [jsBeq, jsBeqObj_iff a b]

def jsBeqList_iff : ∀ a b : List JsValue, jsBeqList a b = true ↔ a = b
  | [], [] => by simp [jsBeqList]
  | [], _ :: _ => by simp [jsBeqList]
  | _ :: _, [] => by simp [jsBeqList]
  | x :: xs, y :: ys => by
      simp [jsBeqList, jsBeq_iff x y, jsBeqList_iff xs ys]

def jsBeqObj_iff : ∀ a b : List (String × JsValue), jsBeqObj a b = true ↔ a = b
  | [], [] => by simp [jsBeqObj]
  | [], _ :: _ => by simp [jsBeqObj]
  | _ :: _, [] => by simp [jsBeqObj]
  | (k1, v1) :: xs, (k2, v2) :: ys => by
      simp [jsBeqObj, jsBeq_iff v1 v2, jsBeqObj_iff xs ys, and_assoc]

end

instance : DecidableEq JsValue := fun a b =>
  decidable_of_iff (jsBeq a b = true) (jsBeq_iff a b)

/-- JavaScript truthiness of a value. -/
def truthy : JsValue → Bool
  | JsValue.undef => false
  | .null => false
  | .bool b => b
  | .num n => n != 0
  | .str s => s != ""
  | .arr _ => true
  | .obj _ => true

/-- Property access `v[k]`: `undefined` on a missing key or a non-object,
which also covers the optional-chaining accesses in the scripts. -/
def getField : JsValue → String → JsValue
  | .obj fs, k =>
      match fs.find? (fun p => p.1 == k) with
      | some p => p.2
      | none => JsValue.undef
  | _, _ => JsValue.undef

/-- JavaScript `a || b`. -/
def jsOr (a b : JsValue) : JsValue :=
  if truthy a then a else b

/-- Elements of `v` when it is an array; `[]` otherwise.  Models the
`(x || []).map − .filter` idiom applied to fields that are arrays or absent. -/
def jsArrElems : JsValue → List JsValue
  | .arr l => l
  | _ => []

/-- Whether an object value carries the key `k`. -/
def hasField (v : JsValue) (k : String) : Bool :=
  match v with
  | .obj fs => fs.any (fun p => p.1 == k)
  | _ => false

/-! ### Record access shared by all pipeline stages (sync-official.js) -/

/-- The registry metadata key `io.modelcontextprotocol.registry/official`. -/
def officialMetaKey : String := "io.modelcontextprotocol.registry/official"

/-- `const server = item.server || {}`. -/
def getServer (item : JsValue) : JsValue :=
  jsOr (getField item "server") (JsValue.obj [])

/-- `const meta = item._meta?.['io.modelcontextprotocol.registry/official'] || {}`. -/
def getMeta (item : JsValue) : JsValue :=
  jsOr (getField (getField item "_meta") officialMetaKey) (JsValue.obj [])

/-- `new Date(v)` on the numeric timestamps of the embedding: the epoch value
itself; every non-numeric input denotes the epoch. -/
def toDateMillis : JsValue → Int
  | .num n => n
  | _ => 0

/-- `new Date(meta.publishedAt || 0)` for a record's registry metadata. -/
def publishedDate (item : JsValue) : Int :=
  toDateMillis (jsOr (getField (getMeta item) "publishedAt") (JsValue.num 0))

/-- `meta.isLatest` truthiness for a record's registry metadata. -/
def metaIsLatest (item : JsValue) : Bool :=
  truthy (getField (getMeta item) "isLatest")

/-! ### Deduplication (deduplicateServers) -/

/-- `Map.get` on an insertion-ordered association list. -/
def mapGet : List (JsValue × JsValue) → JsValue → Option JsValue
  | [], _ => none
  | p :: rest, k => if p.1 = k then some p.2 else mapGet rest k

/-- `Map.set` on an insertion-ordered association list: an existing key keeps
its position, a new key is appended. -/
def mapSet : List (JsValue × JsValue) → JsValue → JsValue → List (JsValue × JsValue)
  | [], k, v => [(k, v)]
  | p :: rest, k, v => if p.1 = k then (p.1, v) :: rest else p :: mapSet rest k v

/-- One iteration of the `for (const item of servers)` loop of
`deduplicateServers`: skip unnamed records, seed on first occurrence, replace
on an `isLatest` flag, otherwise replace only on a strictly newer
`publishedAt`. -/
def dedupStep (m : List (JsValue × JsValue)) (item : JsValue) : List (JsValue × JsValue) :=
  let name := getField (getServer item) "name"
  if truthy name = false then m
  else
    match mapGet m name with
    | none => mapSet m name item
    | some existing =>
      if truthy existing = false then mapSet m name item
      else if metaIsLatest item then mapSet m name item
      else if publishedDate existing < publishedDate item then mapSet m name item
      else m

/-- `deduplicateServers`: fold the loop over the input and return
`Array.from(serverMap.values())` (insertion order). -/
def deduplicateServers (servers : List JsValue) : List JsValue :=
  (servers.foldl dedupStep []).map (fun p => p.2)

/-! ### Installability filter (hasInstallableMethod / filterInstallableServers) -/

/-- `const SUPPORTED_REGISTRY_TYPES = ['npm', 'pypi', 'oci']`. -/
def SUPPORTED_REGISTRY_TYPES : List String := ["npm", "pypi", "oci"]

/-- `SUPPORTED_REGISTRY_TYPES.includes(v)` (strict SameValueZero membership). -/
def isSupportedRegistryType (v : JsValue) : Bool :=
  SUPPORTED_REGISTRY_TYPES.any (fun t => v = JsValue.str t)

/-- `hasInstallableMethod`: the record offers at least one package of a
supported registry type; remotes are deliberately ignored. -/
def hasInstallableMethod (item : JsValue) : Bool :=
  let server := getServer item
  let packages := jsArrElems (jsOr (getField server "packages") (JsValue.arr []))
  let supportedPackages :=
    packages.filter (fun pkg => isSupportedRegistryType (getField pkg "registryType"))
  supportedPackages.length > 0

/-- The nested `stats.filtered` rejection counters. -/
structure FilteredCounts where
  noPackages : Nat
  onlyRemotes : Nat
  unsupportedRegistryType : Nat
deriving DecidableEq

/-- The `stats` object built by `filterInstallableServers`. -/
structure FilterStats where
  total : Nat
  installable : Nat
  filtered : FilteredCounts
  registryTypes : List (JsValue × Nat)
deriving DecidableEq

/-- `stats.registryTypes[type] = (stats.registryTypes[type] || 0) + 1`,
keys kept in first-insertion order like JavaScript object keys. -/
def bumpHistogram (h : List (JsValue × Nat)) (k : JsValue) : List (JsValue × Nat) :=
  if h.any (fun p => p.1 = k) then
    h.map (fun p => if p.1 = k then (p.1, p.2 + 1) else p)
  else h ++ [(k, 1)]

/-- One iteration of the `servers.filter(item => ...)` body of
`filterInstallableServers`, threading the kept records and the stats. -/
def filterStep (acc : List JsValue × FilterStats) (item : JsValue) :
    List JsValue × FilterStats :=
  let kept := acc.1
  let stats := acc.2
  let server := getServer item
  let packages := jsArrElems (jsOr (getField server "packages") (JsValue.arr []))
  let remotes := jsArrElems (jsOr (getField server "remotes") (JsValue.arr []))
  let stats :=
    { stats with
      registryTypes :=
        packages.foldl
          (fun h pkg => bumpHistogram h (jsOr (getField pkg "registryType") (JsValue.str "unknown")))
          stats.registryTypes }
  if hasInstallableMethod item then
    (kept ++ [item], { stats with installable := stats.installable + 1 })
  else if packages.length = 0 then
    if remotes.length > 0 then
      (kept, { stats with filtered := { stats.filtered with onlyRemotes := stats.filtered.onlyRemotes + 1 } })
    else
      (kept, { stats with filtered := { stats.filtered with noPackages := stats.filtered.noPackages + 1 } })
  else
    (kept, { stats with filtered := { stats.filtered with unsupportedRegistryType := stats.filtered.unsupportedRegistryType + 1 } })

/-- `filterInstallableServers`: the kept (installable) records together with
the populated stats object. -/
def filterInstallableServers (servers : List JsValue) : List JsValue × FilterStats :=
  servers.foldl filterStep
    ([], { total := servers.length
           installable := 0
           filtered := { noPackages := 0, onlyRemotes := 0, unsupportedRegistryType := 0 }
           registryTypes := [] })

/-- The four disjoint classification counters of a stats object. -/
def counterSum (s : FilterStats) : Nat :=
  s.installable + s.filtered.noPackages + s.filtered.onlyRemotes
    + s.filtered.unsupportedRegistryType

/-! ### Icon selection (getIconUrl) -/

/-- Optional chaining `found?.src` on the result of an `Array.find`. -/
def optChainSrc : Option JsValue → JsValue
  | some v => getField v "src"
  | none => JsValue.undef

/-- `getIconUrl`: prefer the first `light`-themed icon when its `src` is
truthy, then the first icon with no theme, then the first icon with any
truthy `src`, else `null`; `null` for non-array or empty input. -/
def getIconUrl (icons : JsValue) : JsValue :=
  match icons with
  | .arr l =>
      if l.length = 0 then .null
      else
        let lightSrc := optChainSrc (l.find? (fun icon => getField icon "theme" = JsValue.str "light"))
        if truthy lightSrc then lightSrc
        else
          let defaultSrc := optChainSrc (l.find? (fun icon => !truthy (getField icon "theme")))
          if truthy defaultSrc then defaultSrc
          else jsOr (optChainSrc (l.find? (fun icon => truthy (getField icon "src")))) .null
  | _ => .null

/-! ### Transformers (transformListItem / transformPackage / transformDetail) -/

/-- The `server.repository ? { url, source, subfolder } : null` projection
shared by the list and detail transforms. -/
def transformRepository (repo : JsValue) : JsValue :=
  if truthy repo then
    JsValue.obj
      [ ("url", jsOr (getField repo "url") (JsValue.str ""))
      , ("source", jsOr (getField repo "source") (JsValue.str "github"))
      , ("subfolder", jsOr (getField repo "subfolder") JsValue.undef) ]
  else JsValue.null

/-- `transformListItem`: the list-index projection of a raw record. -/
def transformListItem (item : JsValue) : JsValue :=
  let server := getServer item
  let meta := getMeta item
  JsValue.obj
    [ ("id", jsOr (getField server "name") (JsValue.str ""))
    , ("displayName", jsOr (getField server "title") (jsOr (getField server "name") (JsValue.str "")))
    , ("description", jsOr (getField server "description") (JsValue.str ""))
    , ("iconUrl", getIconUrl (getField server "icons"))
    , ("version", jsOr (getField server "version") (JsValue.str ""))
    , ("status", jsOr (getField meta "status") (JsValue.str "active"))
    , ("publishedAt", jsOr (getField meta "publishedAt") (JsValue.str ""))
    , ("repository", transformRepository (getField server "repository")) ]

/-- The environment-variable entry mapping inside `transformPackage`. -/
def transformEnvVar (env : JsValue) : JsValue :=
  JsValue.obj
    [ ("name", jsOr (getField env "name") (JsValue.str ""))
    , ("description", jsOr (getField env "description") JsValue.undef)
    , ("isRequired", jsOr (getField env "isRequired") (JsValue.bool false))
    , ("isSecret", jsOr (getField env "isSecret") (JsValue.bool false))
    , ("default", jsOr (getField env "default") JsValue.undef)
    , ("choices", jsOr (getField env "choices") JsValue.undef) ]

/-- The `packageArguments` entry mapping inside `transformPackage`. -/
def transformPackageArgument (arg : JsValue) : JsValue :=
  JsValue.obj
    [ ("name", jsOr (getField arg "name") (JsValue.str ""))
    , ("description", jsOr (getField arg "description") JsValue.undef)
    , ("type", jsOr (getField arg "type") (JsValue.str "positional"))
    , ("isRequired", jsOr (getField arg "isRequired") (JsValue.bool false))
    , ("default", jsOr (getField arg "default") JsValue.undef) ]

/-- The `runtimeArguments` entry mapping inside `transformPackage`. -/
def transformRuntimeArgument (arg : JsValue) : JsValue :=
  JsValue.obj
    [ ("name", jsOr (getField arg "name") (JsValue.str ""))
    , ("description", jsOr (getField arg "description") JsValue.undef)
    , ("type", jsOr (getField arg "type") (JsValue.str "named"))
    , ("isRequired", jsOr (getField arg "isRequired") (JsValue.bool false))
    , ("default", jsOr (getField arg "default") JsValue.undef)
    , ("valueHint", jsOr (getField arg "valueHint") JsValue.undef) ]

/-- `pkg.transport ? { type: pkg.transport.type || 'stdio' } : { type: 'stdio' }`. -/
def transformTransport (t : JsValue) : JsValue :=
  if truthy t then JsValue.obj [("type", jsOr (getField t "type") (JsValue.str "stdio"))]
  else JsValue.obj [("type", JsValue.str "stdio")]

/-- `transformPackage`: one package descriptor in the detail projection. -/
def transformPackage (pkg : JsValue) : JsValue :=
  JsValue.obj
    [ ("registryType", jsOr (getField pkg "registryType") (JsValue.str "npm"))
    , ("identifier", jsOr (getField pkg "identifier") (JsValue.str ""))
    , ("version", jsOr (getField pkg "version") JsValue.undef)
    , ("runtimeHint", jsOr (getField pkg "runtimeHint") JsValue.undef)
    , ("transport", transformTransport (getField pkg "transport"))
    , ("environmentVariables",
        JsValue.arr (((jsArrElems (jsOr (getField pkg "environmentVariables") (JsValue.arr []))).map
          transformEnvVar).filter (fun env => truthy (getField env "name"))))
    , ("packageArguments",
        JsValue.arr (((jsArrElems (jsOr (getField pkg "packageArguments") (JsValue.arr []))).map
          transformPackageArgument).filter (fun arg => truthy (getField arg "name"))))
    , ("runtimeArguments",
        JsValue.arr (((jsArrElems (jsOr (getField pkg "runtimeArguments") (JsValue.arr []))).map
          transformRuntimeArgument).filter (fun arg => truthy (getField arg "name")))) ]

/-- The header entry mapping inside the remote transform of `transformDetail`. -/
def transformHeader (header : JsValue) : JsValue :=
  JsValue.obj
    [ ("name", jsOr (getField header "name") (JsValue.str ""))
    , ("description", jsOr (getField header "description") JsValue.undef)
    , ("isRequired", jsOr (getField header "isRequired") (JsValue.bool false))
    , ("isSecret", jsOr (getField header "isSecret") (JsValue.bool false))
    , ("default", jsOr (getField header "default") JsValue.undef) ]

/-- The remote entry mapping inside `transformDetail`. -/
def transformRemote (remote : JsValue) : JsValue :=
  JsValue.obj
    [ ("type", jsOr (getField remote "type") (JsValue.str "streamable-http"))
    , ("url", jsOr (getField remote "url") (JsValue.str ""))
    , ("headers",
        JsValue.arr (((jsArrElems (jsOr (getField remote "headers") (JsValue.arr []))).map
          transformHeader).filter (fun h => truthy (getField h "name")))) ]

/-- `transformDetail`: the full per-server projection; packages are filtered
to the supported registry types before mapping, remotes are mapped and then
filtered for a truthy `url`. -/
def transformDetail (item : JsValue) : JsValue :=
  let server := getServer item
  let meta := getMeta item
  let packages :=
    ((jsArrElems (jsOr (getField server "packages") (JsValue.arr []))).filter
      (fun pkg => isSupportedRegistryType (getField pkg "registryType"))).map transformPackage
  let remotes :=
    ((jsArrElems (jsOr (getField server "remotes") (JsValue.arr []))).map
      transformRemote).filter (fun r => truthy (getField r "url"))
  JsValue.obj
    [ ("id", jsOr (getField server "name") (JsValue.str ""))
    , ("displayName", jsOr (getField server "title") (jsOr (getField server "name") (JsValue.str "")))
    , ("description", jsOr (getField server "description") (JsValue.str ""))
    , ("version", jsOr (getField server "version") (JsValue.str ""))
    , ("status", jsOr (getField meta "status") (JsValue.str "active"))
    , ("publishedAt", jsOr (getField meta "publishedAt") (JsValue.str ""))
    , ("updatedAt", jsOr (getField meta "updatedAt") (JsValue.str ""))
    , ("iconUrl", getIconUrl (getField server "icons"))
    , ("websiteUrl", jsOr (getField server "websiteUrl") JsValue.null)
    , ("repository", transformRepository (getField server "repository"))
    , ("packages", JsValue.arr packages)
    , ("remotes", JsValue.arr remotes) ]

/-! ### GitHub enrichment (parseGitHubUrl / getGitHubStars) -/

/-- Consume the literal `pre` at the head of `cs`. -/
def dropLiteral : List Char → List Char → Option (List Char)
  | [], cs => some cs
  | _ :: _, [] => none
  | p :: ps, c :: cs => if c = p then dropLiteral ps cs else none

/-- One attempted match of `github.com` followed by `sep` then the two capture
groups `([^\/]+)` and `([^\/?#]+)` at the head of `cs`. -/
def matchGitHubAt (sep : Char) (cs : List Char) : Option (String × String) :=
  match dropLiteral ("github.com".data ++ [sep]) cs with
  | none => none
  | some rest =>
      let g1 := rest.takeWhile (fun c => c != '/')
      if g1.isEmpty then none
      else
        match rest.dropWhile (fun c => c != '/') with
        | '/' :: rest2 =>
            let g2 := rest2.takeWhile (fun c => c != '/' && c != '?' && c != '#')
            if g2.isEmpty then none
            else some (String.mk g1, String.mk g2)
        | _ => none

/-- Leftmost match of the pattern over the whole string (`String.match`). -/
def scanGitHub (sep : Char) : List Char → Option (String × String)
  | [] => none
  | c :: rest =>
      match matchGitHubAt sep (c :: rest) with
      | some r => some r
      | none => scanGitHub sep rest

/-- `repo.replace(/\.git$/, '')`. -/
def stripGitSuffix (s : String) : String :=
  if s.data.reverse.take 4 = ['t', 'i', 'g', '.'] then
    String.mk (s.data.take (s.data.length - 4))
  else s

/-- `parseGitHubUrl`: `null` for a falsy URL, else try the HTTPS path pattern
then the SSH colon pattern, stripping a trailing `.git` from the repo. -/
def parseGitHubUrl (url : String) : Option (String × String) :=
  if url = "" then none
  else
    match scanGitHub '/' url.data with
    | some (o, r) => some (o, stripGitSuffix r)
    | none =>
        match scanGitHub ':' url.data with
        | some (o, r) => some (o, stripGitSuffix r)
        | none => none

/-- Outcome of one GitHub repository fetch: a thrown exception, a non-success
response, or a success whose JSON body is the given value. -/
inductive FetchResult : Type where
  | failure : FetchResult
  | notOk : FetchResult
  | ok : JsValue → FetchResult

/-- Run-scoped enrichment state: the `starCache` contents plus the log of
network requests issued (keyed by `owner/repo`). -/
structure StarState where
  cache : List (String × JsValue)
  requests : List String
deriving DecidableEq

/-- `starCache.has/get`. -/
def cacheGet : List (String × JsValue) → String → Option JsValue
  | [], _ => none
  | p :: rest, k => if p.1 = k then some p.2 else cacheGet rest k

/-- `starCache.set`. -/
def cacheSet : List (String × JsValue) → String → JsValue → List (String × JsValue)
  | [], k, v => [(k, v)]
  | p :: rest, k, v => if p.1 = k then (p.1, v) :: rest else p :: cacheSet rest k v

/-- `getGitHubStars` with the network modelled as the map `net` from an
`owner/repo` key to the response this run receives for it: 0 without a
request on an unparseable URL, a cache hit answers immediately, otherwise one
request whose failure modes cache and return 0 and whose success caches and
returns `data.stargazers_count || 0`. -/
def getGitHubStars (net : String → FetchResult) (st : StarState) (repoUrl : String) :
    JsValue × StarState :=
  match parseGitHubUrl repoUrl with
  | none => (JsValue.num 0, st)
  | some (owner, repo) =>
      let cacheKey := owner ++ "/" ++ repo
      match cacheGet st.cache cacheKey with
      | some v => (v, st)
      | none =>
          let requested := st.requests ++ [cacheKey]
          match net cacheKey with
          | .failure => (JsValue.num 0, ⟨cacheSet st.cache cacheKey (JsValue.num 0), requested⟩)
          | .notOk => (JsValue.num 0, ⟨cacheSet st.cache cacheKey (JsValue.num 0), requested⟩)
          | .ok data =>
              let stars := jsOr (getField data "stargazers_count") (JsValue.num 0)
              (stars, ⟨cacheSet st.cache cacheKey stars, requested⟩)

/-! ### Star sort (sync step 5) -/

/-- Lookup in the `serverStars` map (star counts as integers). -/
def starLookup : List (JsValue × Int) → JsValue → Option Int
  | [], _ => none
  | p :: rest, k => if p.1 = k then some p.2 else starLookup rest k

/-- `serverStars.get(a.server?.name) || 0`. -/
def starsOf (serverStars : List (JsValue × Int)) (item : JsValue) : Int :=
  (starLookup serverStars (getField (getField item "server") "name")).getD 0

/-- Insert `x` before the first element whose key does not exceed it; the
insertion step of a stable descending sort. -/
def insertDesc {α : Type} (key : α → Int) (x : α) : List α → List α
  | [] => [x]
  | y :: ys => if key y ≤ key x then x :: y :: ys else y :: insertDesc key x ys

/-- Stable descending insertion sort; `Array.prototype.sort` is specified to
be stable, and with the consistent comparator `(a, b) => key b − key a` any
stable sorted permutation coincides with this one. -/
def insertionSortDesc {α : Type} (key : α → Int) : List α → List α
  | [] => []
  | x :: xs => insertDesc key x (insertionSortDesc key xs)

/-- `[...serverList].sort((a, b) => starsB - starsA)` of sync step 5. -/
def sortServersByStars (serverStars : List (JsValue × Int)) (servers : List JsValue) :
    List JsValue :=
  insertionSortDesc (starsOf serverStars) servers

/-! ### Safe filename (toSafeFileName) -/

/-- `name.replace(/\//g, '__')` character by character. -/
def expandSlashes : List Char → List Char
  | [] => []
  | c :: cs => (if c = '/' then ['_', '_'] else [c]) ++ expandSlashes cs

/-- `toSafeFileName`: every `/` becomes `__`. -/
def toSafeFileName (name : String) : String :=
  String.mk (expandSlashes name.data)

/-- The slash skeleton of a name: which positions hold the `/` separator.
Two names that differ only outside the `/` character share this mask. -/
def slashMask (name : String) : List Bool :=
  name.data.map (fun c => c = '/')

/-! ### JSON serialization of the output records -/

mutual

/-- The value shape `JSON.stringify` writes: object entries whose value is
`undefined` are omitted, `undefined` array elements become `null`. -/
def serializeJson : JsValue → JsValue
  | .obj fs => .obj (serializeJsonObj fs)
  | .arr xs => .arr (serializeJsonArr xs)
  | v => v

def serializeJsonObj : List (String × JsValue) → List (String × JsValue)
  | [] => []
  | (k, v) :: rest =>
      if v = JsValue.undef then serializeJsonObj rest
      else (k, serializeJson v) :: serializeJsonObj rest

def serializeJsonArr : List JsValue → List JsValue
  | [] => []
  | v :: rest =>
      (if v = JsValue.undef then .null else serializeJson v) :: serializeJsonArr rest

end

mutual

/-- No `undefined` occurs anywhere inside the value. -/
def noUndef : JsValue → Bool
  | JsValue.undef => false
  | .obj fs => noUndefObj fs
  | .arr xs => noUndefArr xs
  | _ => true

def noUndefObj : List (String × JsValue) → Bool
  | [] => true
  | (_, v) :: rest => noUndef v && noUndefObj rest

def noUndefArr : List JsValue → Bool
  | [] => true
  | v :: rest => noUndef v && noUndefArr rest

end

/-- Every top-level field of an object value is defined. -/
def topFieldsDefined : JsValue → Bool
  | .obj fs => fs.all (fun p => p.2 != JsValue.undef)
  | _ => true

/-- A record whose `server.name` is truthy is itself truthy (it must be an
object for the field access to produce anything). -/
theorem truthy_of_truthy_name (r : JsValue)
    (h : truthy (getField (getServer r) "name") = true) : truthy r = true := by
  cases r <;> simp_all [getServer, getField, jsOr, truthy]

theorem dedup_pair (r1 r2 nm : JsValue)
    (h1 : getField (getServer r1) "name" = nm)
    (h2 : getField (getServer r2) "name" = nm)
    (ht : truthy nm = true) :
    deduplicateServers [r1, r2] =
      if metaIsLatest r2 then [r2]
      else if publishedDate r1 < publishedDate r2 then [r2]
      else [r1] := by
  have hr1 : truthy r1 = true := truthy_of_truthy_name r1 (h1 ▸ ht)
  simp only [deduplicateServers, List.foldl]
  rw [show dedupStep [] r1 = [(nm, r1)] by
    simp [dedupStep, h1, ht, mapGet, mapSet]]
  simp only [dedupStep, h2, ht]
  by_cases hl : metaIsLatest r2
  · simp [mapGet, mapSet, hl, hr1]
  · by_cases hd : publishedDate r1 < publishedDate r2
    · simp [mapGet, mapSet, hl, hd, hr1]
    · simp [mapGet, mapSet, hl, hd, hr1]

/-- C1 counterexample: two records named `srv`; the first carries the
`isLatest` flag, the second does not but has a strictly greater publish
timestamp.  `deduplicateServers` returns the unflagged record, so the flagged
record is not selected regardless of timestamps and input order. -/
theorem dedup_latest_flag_counterexample :
    deduplicateServers
      [ JsValue.obj
          [ ("server", JsValue.obj [("name", JsValue.str "srv")])
          , ("_meta", JsValue.obj [(officialMetaKey, JsValue.obj
              [("isLatest", JsValue.bool true), ("publishedAt", JsValue.num 5)])]) ]
      , JsValue.obj
          [ ("server", JsValue.obj [("name", JsValue.str "srv")])
          , ("_meta", JsValue.obj [(officialMetaKey, JsValue.obj
              [("publishedAt", JsValue.num 9)])]) ] ]
      = [ JsValue.obj
            [ ("server", JsValue.obj [("name", JsValue.str "srv")])
            , ("_meta", JsValue.obj [(officialMetaKey, JsValue.obj
                [("publishedAt", JsValue.num 9)])]) ] ]
    ∧ metaIsLatest (JsValue.obj
        [ ("server", JsValue.obj [("name", JsValue.str "srv")])
        , ("_meta", JsValue.obj [(officialMetaKey, JsValue.obj
            [("isLatest", JsValue.bool true), ("publishedAt", JsValue.num 5)])]) ]) = true
    ∧ metaIsLatest (JsValue.obj
        [ ("server", JsValue.obj [("name", JsValue.str "srv")])
        , ("_meta", JsValue.obj [(officialMetaKey, JsValue.obj
            [("publishedAt", JsValue.num 9)])]) ]) = false := by
  refine ⟨by decide, by decide, by decide⟩

/-- C1 (amended): for a two-record input with one shared truthy name, the
flagged record wins whenever it is the later occurrence; when the flagged
record comes first, it is kept unless the later unflagged record has a
strictly greater publish timestamp, in which case the unflagged one wins. -/
theorem dedup_latest_flag_amended (r1 r2 nm : JsValue)
    (h1 : getField (getServer r1) "name" = nm)
    (h2 : getField (getServer r2) "name" = nm)
    (ht : truthy nm = true) :
    (metaIsLatest r2 = true → deduplicateServers [r1, r2] = [r2]) ∧
    (metaIsLatest r1 = true → metaIsLatest r2 = false →
      deduplicateServers [r1, r2] =
        if publishedDate r1 < publishedDate r2 then [r2] else [r1]) := by
  constructor
  · intro hl
    rw [dedup_pair r1 r2 nm h1 h2 ht]
    simp [hl]
  · intro _ hl
    rw [dedup_pair r1 r2 nm h1 h2 ht]
    simp [hl]

theorem dedup_latest_flag_amended_witness :
    deduplicateServers
      [ JsValue.obj [("server", JsValue.obj [("name", JsValue.str "a")])]
      , JsValue.obj
          [ ("server", JsValue.obj [("name", JsValue.str "a")])
          , ("_meta", JsValue.obj [(officialMetaKey, JsValue.obj
              [("isLatest", JsValue.bool true)])]) ] ]
      = [ JsValue.obj
            [ ("server", JsValue.obj [("name", JsValue.str "a")])
            , ("_meta", JsValue.obj [(officialMetaKey, JsValue.obj
                [("isLatest", JsValue.bool true)])]) ] ] :=
  (dedup_latest_flag_amended
      (JsValue.obj [("server", JsValue.obj [("name", JsValue.str "a")])])
      (JsValue.obj
        [ ("server", JsValue.obj [("name", JsValue.str "a")])
        , ("_meta", JsValue.obj [(officialMetaKey, JsValue.obj
            [("isLatest", JsValue.bool true)])]) ])
      (JsValue.str "a") (by decide) (by decide) (by decide)).1 (by decide)

/-- C3: for two same-named records with no `isLatest` flag on either side,
deduplication keeps the strictly newer `publishedAt` (the current record
replaces the stored one only on a strictly greater timestamp, a missing
timestamp reading as epoch zero), and an equal-timestamp tie keeps the record
inserted first. -/
theorem dedup_timestamp_order (r1 r2 nm : JsValue)
    (h1 : getField (getServer r1) "name" = nm)
    (h2 : getField (getServer r2) "name" = nm)
    (ht : truthy nm = true)
    (_hl1 : metaIsLatest r1 = false)
    (hl2 : metaIsLatest r2 = false) :
    (publishedDate r1 < publishedDate r2 → deduplicateServers [r1, r2] = [r2]) ∧
    (publishedDate r2 < publishedDate r1 → deduplicateServers [r1, r2] = [r1]) ∧
    (publishedDate r1 = publishedDate r2 → deduplicateServers [r1, r2] = [r1]) ∧
    (getField (getMeta r1) "publishedAt" = JsValue.undef → publishedDate r1 = 0) := by
  refine ⟨?_, ?_, ?_, ?_⟩
  · intro hd
    rw [dedup_pair r1 r2 nm h1 h2 ht]
    simp [hl2, hd]
  · intro hd
    rw [dedup_pair r1 r2 nm h1 h2 ht]
    simp [hl2, not_lt_of_gt hd]
  · intro hd
    rw [dedup_pair r1 r2 nm h1 h2 ht]
    simp [hl2, hd]
  · intro hm
    simp [publishedDate, hm, jsOr, truthy, toDateMillis]

theorem dedup_timestamp_order_witness :
    deduplicateServers
      [ JsValue.obj
          [ ("server", JsValue.obj [("name", JsValue.str "a")])
          , ("_meta", JsValue.obj [(officialMetaKey, JsValue.obj
              [("publishedAt", JsValue.num 3)])]) ]
      , JsValue.obj
          [ ("server", JsValue.obj [("name", JsValue.str "a")])
          , ("_meta", JsValue.obj [(officialMetaKey, JsValue.obj
              [("publishedAt", JsValue.num 7)])]) ] ]
      = [ JsValue.obj
            [ ("server", JsValue.obj [("name", JsValue.str "a")])
            , ("_meta", JsValue.obj [(officialMetaKey, JsValue.obj
                [("publishedAt", JsValue.num 7)])]) ] ] :=
  (dedup_timestamp_order
      (JsValue.obj
        [ ("server", JsValue.obj [("name", JsValue.str "a")])
        , ("_meta", JsValue.obj [(officialMetaKey, JsValue.obj
            [("publishedAt", JsValue.num 3)])]) ])
      (JsValue.obj
        [ ("server", JsValue.obj [("name", JsValue.str "a")])
        , ("_meta", JsValue.obj [(officialMetaKey, JsValue.obj
            [("publishedAt", JsValue.num 7)])]) ])
      (JsValue.str "a") (by decide) (by decide) (by decide) (by decide) (by decide)).1
    (by decide)

theorem isSupportedRegistryType_iff (v : JsValue) :
    isSupportedRegistryType v = true ↔
      v ∈ [JsValue.str "npm", JsValue.str "pypi", JsValue.str "oci"] := by
  simp [isSupportedRegistryType, SUPPORTED_REGISTRY_TYPES]

theorem hasInstallableMethod_iff (item : JsValue) :
    hasInstallableMethod item = true ↔
      ∃ pkg ∈ jsArrElems (jsOr (getField (getServer item) "packages") (JsValue.arr [])),
        getField pkg "registryType"
          ∈ [JsValue.str "npm", JsValue.str "pypi", JsValue.str "oci"] := by
  simp only [hasInstallableMethod, decide_eq_true_eq, List.length_pos_iff_exists_mem,
    List.mem_filter, isSupportedRegistryType_iff]

/-- C2: a record is installable iff its packages contain one of a supported
registry type; a record with no packages and at least one remote is dropped
and counted under `onlyRemotes`; one supported package among unsupported ones
suffices to keep the record. -/
theorem installable_iff_supported_package :
    (∀ item : JsValue,
      hasInstallableMethod item = true ↔
        ∃ pkg ∈ jsArrElems (jsOr (getField (getServer item) "packages") (JsValue.arr [])),
          getField pkg "registryType"
            ∈ [JsValue.str "npm", JsValue.str "pypi", JsValue.str "oci"]) ∧
    (∀ (kept : List JsValue) (stats : FilterStats) (item : JsValue),
      jsArrElems (jsOr (getField (getServer item) "packages") (JsValue.arr [])) = [] →
      jsArrElems (jsOr (getField (getServer item) "remotes") (JsValue.arr [])) ≠ [] →
      filterStep (kept, stats) item =
        (kept, { stats with filtered :=
          { stats.filtered with onlyRemotes := stats.filtered.onlyRemotes + 1 } })) ∧
    (∀ (item pkg1 pkg2 : JsValue),
      jsArrElems (jsOr (getField (getServer item) "packages") (JsValue.arr [])) = [pkg1, pkg2] →
      isSupportedRegistryType (getField pkg1 "registryType") = false →
      isSupportedRegistryType (getField pkg2 "registryType") = true →
      hasInstallableMethod item = true ∧
      ∀ (kept : List JsValue) (stats : FilterStats),
        (filterStep (kept, stats) item).1 = kept ++ [item]) := by
  refine ⟨hasInstallableMethod_iff, ?_, ?_⟩
  · intro kept stats item hp hr
    have hni : hasInstallableMethod item = false := by
      simp [hasInstallableMethod, hp]
    simp [filterStep, hp, hni, List.length_pos, hr]
  · intro item pkg1 pkg2 hp h1 h2
    have hi : hasInstallableMethod item = true := by
      simp [hasInstallableMethod, hp, List.filter, h1, h2]
    refine ⟨hi, ?_⟩
    intro kept stats
    simp [filterStep, hi]

theorem installable_iff_supported_package_witness :
    (filterStep ([], ⟨1, 0, ⟨0, 0, 0⟩, []⟩)
      (JsValue.obj [("server", JsValue.obj
        [ ("name", JsValue.str "r")
        , ("remotes", JsValue.arr [JsValue.obj [("url", JsValue.str "u")]]) ])]))
    = ([], ⟨1, 0, ⟨0, 1, 0⟩, []⟩) :=
  installable_iff_supported_package.2.1 [] ⟨1, 0, ⟨0, 0, 0⟩, []⟩
    (JsValue.obj [("server", JsValue.obj
      [ ("name", JsValue.str "r")
      , ("remotes", JsValue.arr [JsValue.obj [("url", JsValue.str "u")]]) ])])
    (by decide) (by decide)

theorem filterStep_counterSum (acc : List JsValue × FilterStats) (item : JsValue) :
    counterSum (filterStep acc item).2 = counterSum acc.2 + 1 := by
  simp only [filterStep, counterSum]
  split
  · simp only
    omega
  · split
    · split
      · simp only
        omega
      · simp only
        omega
    · simp only
      omega

theorem filterStep_total (acc : List JsValue × FilterStats) (item : JsValue) :
    (filterStep acc item).2.total = acc.2.total := by
  simp only [filterStep]
  split
  · simp
  · split
    · split
      · simp
      · simp
    · simp

theorem foldl_filterStep_counterSum :
    ∀ (items : List JsValue) (acc : List JsValue × FilterStats),
      counterSum (items.foldl filterStep acc).2 = counterSum acc.2 + items.length
  | [], acc => by simp
  | item :: rest, acc => by
      simp only [List.foldl, List.length_cons]
      rw [foldl_filterStep_counterSum rest (filterStep acc item),
        filterStep_counterSum acc item]
      omega

theorem foldl_filterStep_total :
    ∀ (items : List JsValue) (acc : List JsValue × FilterStats),
      (items.foldl filterStep acc).2.total = acc.2.total
  | [], acc => by simp
  | item :: rest, acc => by
      simp only [List.foldl]
      rw [foldl_filterStep_total rest (filterStep acc item), filterStep_total acc item]

/-- C8: every non-installable record is charged to exactly one rejection
reason, so the four classification counters partition the input:
`installable + noPackages + onlyRemotes + unsupportedRegistryType = total`. -/
theorem filter_stats_partition (servers : List JsValue) :
    (filterInstallableServers servers).2.installable
      + (filterInstallableServers servers).2.filtered.noPackages
      + (filterInstallableServers servers).2.filtered.onlyRemotes
      + (filterInstallableServers servers).2.filtered.unsupportedRegistryType
      = (filterInstallableServers servers).2.total := by
  have hs := foldl_filterStep_counterSum servers
    ([], ⟨servers.length, 0, ⟨0, 0, 0⟩, []⟩)
  have htot := foldl_filterStep_total servers
    ([], ⟨servers.length, 0, ⟨0, 0, 0⟩, []⟩)
  simp only [counterSum] at hs
  simp at hs htot
  simp only [filterInstallableServers]
  omega

/-- C4 counterexample: the first `light`-themed candidate has no `src`, so the
code falls through to the theme-less candidate and returns `"c"`, which is not
the `src` of any `light`-themed candidate even though one with src `"x"`
exists. -/
theorem icon_light_preference_counterexample :
    getIconUrl (JsValue.arr
      [ JsValue.obj [("theme", JsValue.str "light")]
      , JsValue.obj [("src", JsValue.str "c")]
      , JsValue.obj [("theme", JsValue.str "light"), ("src", JsValue.str "x")] ])
      = JsValue.str "c"
    ∧ getField (JsValue.obj [("theme", JsValue.str "light")]) "theme" = JsValue.str "light"
    ∧ getField (JsValue.obj [("theme", JsValue.str "light"), ("src", JsValue.str "x")]) "theme"
        = JsValue.str "light"
    ∧ getField (JsValue.obj [("theme", JsValue.str "light")]) "src" ≠ JsValue.str "c"
    ∧ getField (JsValue.obj [("theme", JsValue.str "light"), ("src", JsValue.str "x")]) "src"
        ≠ JsValue.str "c" := by
  refine ⟨by decide, by decide, by decide, by decide, by decide⟩

/-- C4 (amended): `getIconUrl` returns the `src` of the first `light`-themed
candidate provided that `src` is truthy; otherwise the `src` of the first
candidate with no theme tag provided that `src` is truthy; otherwise the
`src` of the first candidate whose `src` is truthy; otherwise `null`; and
`null` for an empty or non-array input.  The spec's concrete examples hold. -/
theorem icon_selection_amended :
    (∀ v : JsValue, (∀ l, v ≠ JsValue.arr l) → getIconUrl v = JsValue.null) ∧
    (getIconUrl (JsValue.arr []) = JsValue.null) ∧
    (∀ (l : List JsValue) (ic : JsValue),
      l.find? (fun icon => getField icon "theme" = JsValue.str "light") = some ic →
      truthy (getField ic "src") = true →
      getIconUrl (JsValue.arr l) = getField ic "src") ∧
    (∀ (l : List JsValue) (ic : JsValue),
      truthy (optChainSrc (l.find? (fun icon => getField icon "theme" = JsValue.str "light"))) = false →
      l.find? (fun icon => !truthy (getField icon "theme")) = some ic →
      truthy (getField ic "src") = true →
      getIconUrl (JsValue.arr l) = getField ic "src") ∧
    (∀ (l : List JsValue) (ic : JsValue),
      truthy (optChainSrc (l.find? (fun icon => getField icon "theme" = JsValue.str "light"))) = false →
      truthy (optChainSrc (l.find? (fun icon => !truthy (getField icon "theme")))) = false →
      l.find? (fun icon => truthy (getField icon "src")) = some ic →
      getIconUrl (JsValue.arr l) = getField ic "src") ∧
    (∀ l : List JsValue,
      truthy (optChainSrc (l.find? (fun icon => getField icon "theme" = JsValue.str "light"))) = false →
      truthy (optChainSrc (l.find? (fun icon => !truthy (getField icon "theme")))) = false →
      l.find? (fun icon => truthy (getField icon "src")) = none →
      getIconUrl (JsValue.arr l) = JsValue.null) ∧
    (getIconUrl (JsValue.arr
      [ JsValue.obj [("theme", JsValue.str "dark"), ("src", JsValue.str "a")]
      , JsValue.obj [("theme", JsValue.str "light"), ("src", JsValue.str "b")] ])
      = JsValue.str "b") ∧
    (getIconUrl (JsValue.arr [JsValue.obj [("src", JsValue.str "c")]]) = JsValue.str "c") := by
  refine ⟨?_, by decide, ?_, ?_, ?_, ?_, by decide, by decide⟩
  · intro v hv
    cases v <;> simp [getIconUrl]
    exact absurd rfl (hv _)
  · intro l ic hf hs
    have hne : l ≠ [] := by rintro rfl; simp at hf
    have hln : ¬(l.length = 0) := by simpa [List.length_eq_zero] using hne
    simp only [getIconUrl, hf, optChainSrc]
    rw [if_neg hln]
    simp [hs]
  · intro l ic hlight hf hs
    have hne : l ≠ [] := by rintro rfl; simp at hf
    have hln : ¬(l.length = 0) := by simpa [List.length_eq_zero] using hne
    simp only [optChainSrc] at hlight
    simp only [getIconUrl, optChainSrc, hf]
    rw [if_neg hln]
    simp [hlight, hs]
  · intro l ic hlight hdef hf
    have hne : l ≠ [] := by rintro rfl; simp at hf
    have hln : ¬(l.length = 0) := by simpa [List.length_eq_zero] using hne
    have hs : truthy (getField ic "src") = true := by simpa using List.find?_some hf
    simp only [optChainSrc] at hlight hdef
    simp only [getIconUrl, optChainSrc, hf]
    rw [if_neg hln]
    simp [hlight, hdef, hs, jsOr]
  · intro l hlight hdef hf
    by_cases hl : l = []
    · subst hl; simp [getIconUrl]
    · have hln : ¬(l.length = 0) := by simpa [List.length_eq_zero] using hl
      simp only [optChainSrc] at hlight hdef
      simp only [getIconUrl, optChainSrc, hf]
      rw [if_neg hln]
      simp only [hlight, hdef]
      simp [jsOr, truthy]

theorem icon_selection_amended_witness :
    getIconUrl (JsValue.str "no-icons") = JsValue.null ∧
    getIconUrl (JsValue.arr
      [ JsValue.obj [("theme", JsValue.str "dark"), ("src", JsValue.str "a")]
      , JsValue.obj [("theme", JsValue.str "light"), ("src", JsValue.str "b")] ])
      = getField (JsValue.obj [("theme", JsValue.str "light"), ("src", JsValue.str "b")]) "src" :=
  ⟨icon_selection_amended.1 (JsValue.str "no-icons") (fun l => by simp),
   icon_selection_amended.2.2.1
     [ JsValue.obj [("theme", JsValue.str "dark"), ("src", JsValue.str "a")]
     , JsValue.obj [("theme", JsValue.str "light"), ("src", JsValue.str "b")] ]
     (JsValue.obj [("theme", JsValue.str "light"), ("src", JsValue.str "b")])
     (by decide) (by decide)⟩

/-- C5: enrichment never propagates an error and is memoized: an unparseable
URL returns 0 with untouched state (no request), a failed or non-success
fetch caches and returns 0, and a second query for the same parseable URL
issues no further request and returns the value of the first. -/
theorem github_stars_safe_and_memoized :
    (parseGitHubUrl "" = none ∧ parseGitHubUrl "not-a-url" = none) ∧
    (∀ (net : String → FetchResult) (st : StarState) (url : String),
      parseGitHubUrl url = none → getGitHubStars net st url = (JsValue.num 0, st)) ∧
    (∀ (net : String → FetchResult) (st : StarState) (url owner repo : String),
      parseGitHubUrl url = some (owner, repo) →
      cacheGet st.cache (owner ++ "/" ++ repo) = none →
      (net (owner ++ "/" ++ repo) = FetchResult.failure ∨
        net (owner ++ "/" ++ repo) = FetchResult.notOk) →
      getGitHubStars net st url =
        (JsValue.num 0,
          ⟨cacheSet st.cache (owner ++ "/" ++ repo) (JsValue.num 0),
           st.requests ++ [owner ++ "/" ++ repo]⟩)) ∧
    (∀ (net : String → FetchResult) (url owner repo : String),
      parseGitHubUrl url = some (owner, repo) →
      (getGitHubStars net ⟨[], []⟩ url).2.requests = [owner ++ "/" ++ repo] ∧
      getGitHubStars net (getGitHubStars net ⟨[], []⟩ url).2 url
        = ((getGitHubStars net ⟨[], []⟩ url).1,
           (getGitHubStars net ⟨[], []⟩ url).2)) := by
  refine ⟨⟨by decide, by decide⟩, ?_, ?_, ?_⟩
  · intro net st url hp
    simp [getGitHubStars, hp]
  · intro net st url owner repo hp hc hnet
    rcases hnet with hnet | hnet <;>
      simp [getGitHubStars, hp, hc, hnet]
  · intro net url owner repo hp
    cases hnet : net (owner ++ "/" ++ repo) <;>
      simp [getGitHubStars, hp, hnet, cacheGet, cacheSet]

theorem github_stars_safe_and_memoized_witness :
    getGitHubStars
        (fun _ => FetchResult.ok (JsValue.obj [("stargazers_count", JsValue.num 7)]))
        (getGitHubStars
          (fun _ => FetchResult.ok (JsValue.obj [("stargazers_count", JsValue.num 7)]))
          ⟨[], []⟩ "https://github.com/foo/bar").2
        "https://github.com/foo/bar"
      = ((getGitHubStars
            (fun _ => FetchResult.ok (JsValue.obj [("stargazers_count", JsValue.num 7)]))
            ⟨[], []⟩ "https://github.com/foo/bar").1,
         (getGitHubStars
            (fun _ => FetchResult.ok (JsValue.obj [("stargazers_count", JsValue.num 7)]))
            ⟨[], []⟩ "https://github.com/foo/bar").2) :=
  (github_stars_safe_and_memoized.2.2.2
    (fun _ => FetchResult.ok (JsValue.obj [("stargazers_count", JsValue.num 7)]))
    "https://github.com/foo/bar" "foo" "bar" (by decide)).2

theorem mem_insertDesc {α : Type} (key : α → Int) (x a : α) :
    ∀ l : List α, a ∈ insertDesc key x l ↔ a = x ∨ a ∈ l
  | [] => by simp [insertDesc]
  | y :: ys => by
      simp only [insertDesc]
      split
      · simp
      · simp [mem_insertDesc key x a ys]
        tauto

theorem insertDesc_pairwise {α : Type} (key : α → Int) (x : α) :
    ∀ l : List α, l.Pairwise (fun a b => key b ≤ key a) →
      (insertDesc key x l).Pairwise (fun a b => key b ≤ key a)
  | [], _ => by simp [insertDesc]
  | y :: ys, h => by
      rcases List.pairwise_cons.mp h with ⟨hy, hys⟩
      simp only [insertDesc]
      split
      · refine List.pairwise_cons.mpr ⟨?_, h⟩
        intro b hb
        rcases List.mem_cons.mp hb with rfl | hb
        · assumption
        · exact le_trans (hy b hb) (by assumption)
      · refine List.pairwise_cons.mpr ⟨?_, insertDesc_pairwise key x ys hys⟩
        intro b hb
        rcases (mem_insertDesc key x b ys).mp hb with rfl | hb
        · omega
        · exact hy b hb

theorem insertDesc_filter {α : Type} (key : α → Int) (c : Int) (x : α) :
    ∀ l : List α,
      (insertDesc key x l).filter (fun a => key a = c) =
        if key x = c then x :: l.filter (fun a => key a = c)
        else l.filter (fun a => key a = c)
  | [] => by
      by_cases hx : key x = c <;> simp [insertDesc, List.filter, hx]
  | y :: ys => by
      simp only [insertDesc]
      split
      · by_cases hx : key x = c <;> by_cases hy : key y = c <;>
          simp [List.filter, hx, hy]
      · rename_i hxy
        have hlt : key x < key y := by omega
        by_cases hy : key y = c
        · have hx : ¬key x = c := by omega
          simp [List.filter, hy, hx, insertDesc_filter key c x ys]
        · simp [List.filter, hy, insertDesc_filter key c x ys]

theorem insertDesc_perm {α : Type} (key : α → Int) (x : α) :
    ∀ l : List α, (insertDesc key x l).Perm (x :: l)
  | [] => by simp [insertDesc]
  | y :: ys => by
      simp only [insertDesc]
      split
      · exact List.Perm.refl _
      · exact ((insertDesc_perm key x ys).cons y).trans (List.Perm.swap x y ys)

theorem insertionSortDesc_pairwise {α : Type} (key : α → Int) :
    ∀ l : List α, (insertionSortDesc key l).Pairwise (fun a b => key b ≤ key a)
  | [] => by simp [insertionSortDesc]
  | x :: xs => by
      simp only [insertionSortDesc]
      exact insertDesc_pairwise key x _ (insertionSortDesc_pairwise key xs)

theorem insertionSortDesc_filter {α : Type} (key : α → Int) (c : Int) :
    ∀ l : List α,
      (insertionSortDesc key l).filter (fun a => key a = c) =
        l.filter (fun a => key a = c)
  | [] => by simp [insertionSortDesc]
  | x :: xs => by
      simp only [insertionSortDesc]
      rw [insertDesc_filter key c x (insertionSortDesc key xs),
        insertionSortDesc_filter key c xs]
      by_cases hx : key x = c <;> simp [List.filter, hx]

theorem insertionSortDesc_perm {α : Type} (key : α → Int) :
    ∀ l : List α, (insertionSortDesc key l).Perm l
  | [] => by simp [insertionSortDesc]
  | x :: xs => by
      simp only [insertionSortDesc]
      exact (insertDesc_perm key x _).trans
        ((insertionSortDesc_perm key xs).cons x)

/-- C6: the star sort of sync step 5 is a stable descending sort: each
element's star count (0 when absent from the star map) is at least the next
element's, elements with equal star counts keep their relative order from the
pre-sort list, and the output is a permutation of the input. -/
theorem sort_by_stars_stable_desc (serverStars : List (JsValue × Int)) (servers : List JsValue) :
    List.Chain' (fun a b => starsOf serverStars b ≤ starsOf serverStars a)
      (sortServersByStars serverStars servers) ∧
    (∀ c : Int,
      (sortServersByStars serverStars servers).filter (fun a => starsOf serverStars a = c)
        = servers.filter (fun a => starsOf serverStars a = c)) ∧
    (sortServersByStars serverStars servers).Perm servers := by
  refine ⟨?_, ?_, insertionSortDesc_perm _ servers⟩
  · exact List.Pairwise.chain' (insertionSortDesc_pairwise _ servers)
  · intro c
    exact insertionSortDesc_filter _ c servers

theorem expandSlashes_inj :
    ∀ a b : List Char,
      a.map (fun c => (c = '/' : Bool)) = b.map (fun c => (c = '/' : Bool)) →
      expandSlashes a = expandSlashes b → a = b
  | [], [] => fun _ _ => rfl
  | [], _ :: _ => by simp
  | _ :: _, [] => by simp
  | a :: as, b :: bs => by
      intro hm he
      simp only [List.map, List.cons.injEq] at hm
      obtain ⟨h1, h2⟩ := hm
      by_cases ha : a = '/'
      · have hb : b = '/' := by
          subst ha; simpa using h1.symm
        subst ha; subst hb
        simp only [expandSlashes, if_pos rfl, List.cons.injEq, List.append_eq] at he
        simp [expandSlashes_inj as bs h2 (by simpa using he)]
      · have hb : ¬b = '/' := by
          intro hb; subst hb; simp [ha] at h1
        simp only [expandSlashes, if_neg ha, if_neg hb, List.append_eq,
          List.cons_append, List.nil_append, List.cons.injEq] at he
        obtain ⟨hab, he2⟩ := he
        simp [hab, expandSlashes_inj as bs h2 he2]

/-- C9: the safe-filename transform maps `io.github.user/weather` to
`io.github.user__weather`, is deterministic, and is injective on names with
the same slash skeleton: two distinct names that differ only outside the `/`
character never collide. -/
theorem toSafeFileName_spec :
    toSafeFileName "io.github.user/weather" = "io.github.user__weather" ∧
    (∀ n : String, toSafeFileName n = toSafeFileName n) ∧
    (∀ n1 n2 : String, slashMask n1 = slashMask n2 →
      toSafeFileName n1 = toSafeFileName n2 → n1 = n2) := by
  refine ⟨by decide, fun n => rfl, ?_⟩
  intro n1 n2 hm he
  simp only [slashMask] at hm
  simp only [toSafeFileName] at he
  have he2 : expandSlashes n1.data = expandSlashes n2.data := congrArg String.data he
  have hd : n1.data = n2.data := expandSlashes_inj _ _ hm he2
  exact String.ext hd

theorem toSafeFileName_spec_witness :
    toSafeFileName "io.github.user/weather" = "io.github.user__weather" ∧
    ("a/b" : String) = "a/b" :=
  ⟨toSafeFileName_spec.1, toSafeFileName_spec.2.2 "a/b" "a/b" (by decide) (by decide)⟩

theorem truthy_ne_undef (v : JsValue) (h : truthy v = true) : v ≠ JsValue.undef := by
  intro hv; subst hv; simp [truthy] at h

theorem jsOr_ne_undef (a b : JsValue) (hb : b ≠ JsValue.undef) : jsOr a b ≠ JsValue.undef := by
  unfold jsOr
  split
  · exact truthy_ne_undef a (by assumption)
  · exact hb

theorem getIconUrl_ne_undef (v : JsValue) : getIconUrl v ≠ JsValue.undef := by
  cases v <;> simp [getIconUrl]
  split
  · simp
  · split
    · exact truthy_ne_undef _ (by assumption)
    · split
      · exact truthy_ne_undef _ (by assumption)
      · exact jsOr_ne_undef _ _ (by simp)

theorem transformRepository_ne_undef (r : JsValue) :
    transformRepository r ≠ JsValue.undef := by
  unfold transformRepository
  split <;> simp

theorem transformTransport_ne_undef (t : JsValue) :
    transformTransport t ≠ JsValue.undef := by
  unfold transformTransport
  split <;> simp

mutual

theorem noUndef_serializeJson : ∀ v : JsValue, v ≠ JsValue.undef → noUndef (serializeJson v) = true
  | JsValue.undef, h => absurd rfl h
  | .null, _ => rfl
  | .bool _, _ => rfl
  | .num _, _ => rfl
  | .str _, _ => rfl
  | .arr xs, _ => by
      simp [serializeJson, noUndef, noUndef_serializeJsonArr xs]
  | .obj fs, _ => by
      simp [serializeJson, noUndef, noUndef_serializeJsonObj fs]

theorem noUndef_serializeJsonObj : ∀ fs : List (String × JsValue), noUndefObj (serializeJsonObj fs) = true
  | [] => rfl
  | (k, v) :: rest => by
      by_cases h : v = JsValue.undef
      · simp [serializeJsonObj, h, noUndef_serializeJsonObj rest]
      · simp [serializeJsonObj, h, noUndefObj, noUndef_serializeJson v h,
          noUndef_serializeJsonObj rest]

theorem noUndef_serializeJsonArr : ∀ xs : List JsValue, noUndefArr (serializeJsonArr xs) = true
  | [] => rfl
  | v :: rest => by
      by_cases h : v = JsValue.undef
      · simp [serializeJsonArr, h, noUndefArr, noUndef, noUndef_serializeJsonArr rest]
      · simp [serializeJsonArr, h, noUndefArr, noUndef_serializeJson v h,
          noUndef_serializeJsonArr rest]

end

/-- C7 counterexample: `transformPackage` of a package with no `version`
emits a `version` field whose value is `undefined` (the code deliberately
defaults several optional fields to `undefined`), so the in-memory projection
does contain an undefined field. -/
theorem transform_undef_field_counterexample :
    hasField (transformPackage (JsValue.obj [])) "version" = true ∧
    getField (transformPackage (JsValue.obj [])) "version" = JsValue.undef := by
  refine ⟨by decide, by decide⟩

/-- C7 (amended): every top-level field of the list and detail projections is
defined; in `transformPackage` every field other than the deliberately
optional `version` and `runtimeHint` is defined; and after JSON
serialization, which omits `undefined`-valued object fields, no projection
contains an undefined field anywhere. -/
theorem transform_defaults_amended :
    (∀ item : JsValue, topFieldsDefined (transformListItem item) = true) ∧
    (∀ item : JsValue, topFieldsDefined (transformDetail item) = true) ∧
    (∀ (pkg : JsValue) (k : String), hasField (transformPackage pkg) k = true →
      k ≠ "version" → k ≠ "runtimeHint" →
      getField (transformPackage pkg) k ≠ JsValue.undef) ∧
    (∀ pkg : JsValue, noUndef (serializeJson (transformPackage pkg)) = true) ∧
    (∀ item : JsValue, noUndef (serializeJson (transformListItem item)) = true) ∧
    (∀ item : JsValue, noUndef (serializeJson (transformDetail item)) = true) := by
  refine ⟨?_, ?_, ?_, ?_, ?_, ?_⟩
  · intro item
    simp [topFieldsDefined, transformListItem, bne_iff_ne, jsOr_ne_undef,
      getIconUrl_ne_undef, transformRepository_ne_undef]
  · intro item
    simp [topFieldsDefined, transformDetail, bne_iff_ne, jsOr_ne_undef,
      getIconUrl_ne_undef, transformRepository_ne_undef]
  · intro pkg k hk hv hr
    simp only [hasField, transformPackage, List.any_cons, List.any_nil,
      Bool.or_eq_true, beq_iff_eq] at hk
    rcases hk with hk | hk | hk | hk | hk | hk | hk | hk | hk
    · subst hk; simp [getField, transformPackage, jsOr_ne_undef]
    · subst hk; simp [getField, transformPackage, jsOr_ne_undef]
    · exact absurd hk.symm hv
    · exact absurd hk.symm hr
    · subst hk; simp [getField, transformPackage, transformTransport_ne_undef]
    · subst hk; simp [getField, transformPackage]
    · subst hk; simp [getField, transformPackage]
    · subst hk; simp [getField, transformPackage]
    · exact absurd hk (by simp)
  · intro pkg
    exact noUndef_serializeJson _ (by simp [transformPackage])
  · intro item
    exact noUndef_serializeJson _ (by simp [transformListItem])
  · intro item
    exact noUndef_serializeJson _ (by simp [transformDetail])

theorem transform_defaults_amended_witness :
    getField (transformPackage (JsValue.obj [("registryType", JsValue.str "npm")]))
      "identifier" ≠ JsValue.undef :=
  transform_defaults_amended.2.2.1
    (JsValue.obj [("registryType", JsValue.str "npm")]) "identifier"
    (by decide) (by decide) (by decide)

theorem truthy_jsOr_emptyStr (x : JsValue) :
    truthy (jsOr x (JsValue.str "")) = truthy x := by
  unfold jsOr
  split
  · rfl
  · rename_i h
    simp only [Bool.not_eq_true] at h
    rw [h]
    rfl

theorem transformRemote_url_truthy (r : JsValue) :
    truthy (getField (transformRemote r) "url") = truthy (getField r "url") := by
  have : getField (transformRemote r) "url" = jsOr (getField r "url") (JsValue.str "") := by
    simp [transformRemote, getField]
  rw [this, truthy_jsOr_emptyStr]

/-- C10: the detail projection keeps exactly the supported-type packages
(each output package is the transform of a supported raw package, and every
supported raw package appears), while remotes are kept whenever their raw
`url` is truthy, with no registry-type filtering. -/
theorem transformDetail_packages_remotes :
    (∀ item v : JsValue,
      v ∈ jsArrElems (getField (transformDetail item) "packages") ↔
        ∃ pkg ∈ jsArrElems (jsOr (getField (getServer item) "packages") (JsValue.arr [])),
          isSupportedRegistryType (getField pkg "registryType") = true ∧
          v = transformPackage pkg) ∧
    (∀ item w : JsValue,
      w ∈ jsArrElems (getField (transformDetail item) "remotes") ↔
        ∃ r ∈ jsArrElems (jsOr (getField (getServer item) "remotes") (JsValue.arr [])),
          truthy (getField r "url") = true ∧ w = transformRemote r) := by
  constructor
  · intro item v
    have hpk : getField (transformDetail item) "packages" =
        JsValue.arr (((jsArrElems (jsOr (getField (getServer item) "packages") (JsValue.arr []))).filter
          (fun pkg => isSupportedRegistryType (getField pkg "registryType"))).map transformPackage) := by
      simp [transformDetail, getField]
    rw [hpk]
    simp only [jsArrElems, List.mem_map, List.mem_filter]
    constructor
    · rintro ⟨pkg, ⟨hmem, hsup⟩, rfl⟩
      exact ⟨pkg, hmem, hsup, rfl⟩
    · rintro ⟨pkg, hmem, hsup, rfl⟩
      exact ⟨pkg, ⟨hmem, hsup⟩, rfl⟩
  · intro item w
    have hrm : getField (transformDetail item) "remotes" =
        JsValue.arr (((jsArrElems (jsOr (getField (getServer item) "remotes") (JsValue.arr []))).map
          transformRemote).filter (fun r => truthy (getField r "url"))) := by
      simp [transformDetail, getField]
    rw [hrm]
    simp only [jsArrElems, List.mem_filter, List.mem_map]
    constructor
    · rintro ⟨⟨r, hmem, rfl⟩, hurl⟩
      rw [transformRemote_url_truthy] at hurl
      exact ⟨r, hmem, hurl, rfl⟩
    · rintro ⟨r, hmem, hurl, rfl⟩
      exact ⟨⟨r, hmem, rfl⟩, by rw [transformRemote_url_truthy]; exact hurl⟩
